import Mathlib

/-!
Shallow embedding of the codecrafters HTTP server (Rust sources
`src/request.rs`, `src/main.rs`, `src/middleware.rs`, `src/route.rs`).

The TCP byte stream is modelled as a `List Char` (the ASCII fragment of the
wire, one scalar per byte).  Rust string primitives (`split`, `contains`,
`trim`, `to_lowercase`) are re-implemented on char lists so that every
definition is executable and kernel-reducible.  The flate2 encoders used by
`compress_gzip` / `compress_deflate` live outside this repository, so the
compression step takes the two encoders as function parameters; everything
else is translated directly from the source.
-/

/-! ### Rust `str` primitives on char lists -/

/-- Embeds Rust `str::contains(pat)`: `pat` occurs as a contiguous substring.
The empty pattern is contained in every string, as in Rust. -/
def listContains (pat : List Char) : List Char → Bool
  | [] => pat.isEmpty
  | c :: rest => pat.isPrefixOf (c :: rest) || listContains pat rest

/-- Embeds Rust `str::contains` on `String`s. -/
def strContains (s pat : String) : Bool := listContains pat.toList s.toList

/-- Embeds Rust `str::starts_with`. -/
def strStartsWith (s p : String) : Bool := p.toList.isPrefixOf s.toList

/-- Embeds Rust `String::to_lowercase` on the ASCII fragment
(`Char.toLower` lowers exactly the ASCII letters, as Rust does on ASCII). -/
def lowerStr (s : String) : String := String.mk (s.toList.map Char.toLower)

/-- Embeds the byte-index slice `&s[n..]` (the callers only slice after an
ASCII prefix, where byte index and char index agree). -/
def strDrop (s : String) (n : Nat) : String := String.mk (s.toList.drop n)

/-- Whitespace recognised by `str::trim` (ASCII fragment). -/
def isWsp (c : Char) : Bool := c = ' ' || c = '\t' || c = '\r' || c = '\n'

/-- Embeds Rust `str::trim`: drop whitespace from both ends. -/
def trimL (l : List Char) : List Char :=
  ((l.dropWhile isWsp).reverse.dropWhile isWsp).reverse

/-- Embeds Rust `split(' ')`: split on every single space, keeping empty
pieces, always returning at least one piece. -/
def splitSpace : List Char → List (List Char)
  | [] => [[]]
  | c :: rest =>
    if c = ' ' then [] :: splitSpace rest
    else
      match splitSpace rest with
      | [] => [[c]]
      | h :: t => (c :: h) :: t

/-- Embeds Rust `split(": ")`: split on each non-overlapping occurrence of
the two-char separator, scanning left to right. -/
def splitColonSpace : List Char → List (List Char)
  | [] => [[]]
  | [c] => [[c]]
  | c :: d :: rest =>
    if c = ':' && d = ' ' then [] :: splitColonSpace rest
    else
      match splitColonSpace (d :: rest) with
      | [] => [[c]]
      | h :: t => (c :: h) :: t

/-- Embeds Rust `usize::from_str` (`"5".parse::<usize>()`): an optional
leading `+`, then one or more ASCII digits, rejecting overflow past
`usize::MAX` on a 64-bit target. -/
def parseUsize (s : String) : Option Nat :=
  let l := s.toList
  let l := match l with
    | '+' :: t => t
    | _ => l
  if l.isEmpty then none
  else if l.all Char.isDigit then
    let n := l.foldl (fun a c => a * 10 + (c.toNat - 48)) 0
    if n < 2 ^ 64 then some n else none
  else none

/-! ### `src/request.rs` -/

/-- Embeds `HeadersHere = HashMap<String, String>` as an association list
with unique keys (insert overwrites, lookup finds the stored value). -/
abbrev HeadersHere := List (String × String)

/-- Embeds `HashMap::insert`: replace any previous binding of `k`. -/
def hinsert (hs : HeadersHere) (k v : String) : HeadersHere :=
  hs.filter (fun p => !(p.1 == k)) ++ [(k, v)]

/-- Embeds `HashMap::get`. -/
def hget (hs : HeadersHere) (k : String) : Option String :=
  (hs.find? (fun p => p.1 == k)).map (fun p => p.2)

/-- Embeds `enum RequestError` (the `io::Error` payload is dropped). -/
inductive RequestError
  | IoErr
  | ConnectionClosed
  | MissingMethod
  | MissingPath
  | MissingVersion
  | InvalidHeader
deriving DecidableEq, Repr

/-- Embeds `struct Request`. -/
structure Request where
  method : String
  path : String
  version : String
  headers : HeadersHere
  body : List Char
  persistent : Bool
deriving DecidableEq, Repr

/-- Embeds `BufRead::read_line`: consume up to and including the first
newline (or the whole rest at EOF); returns the line and the remainder. -/
def readLineChars : List Char → List Char × List Char
  | [] => ([], [])
  | c :: rest =>
    if c = '\n' then ([c], rest)
    else
      let (l, r) := readLineChars rest
      (c :: l, r)

/-- Embeds the start-line stage of `parse_request`: three `next()` calls on
`start_line.split(' ')`, each with its own error. -/
def parse_start_line (l : List Char) :
    Except RequestError (String × String × String) :=
  match splitSpace l with
  | [] => .error .MissingMethod
  | [_] => .error .MissingPath
  | [_, _] => .error .MissingVersion
  | m :: p :: v :: _ => .ok (String.mk m, String.mk p, String.mk v)

/-- Embeds one iteration of the header loop of `parse_request`: split the
trimmed line on `": "`, lower-case the key, keep the second piece as value. -/
def parse_header_line (l : List Char) : Except RequestError (String × String) :=
  match splitColonSpace l with
  | [] => .error .InvalidHeader
  | [_] => .error .InvalidHeader
  | k :: v :: _ => .ok (lowerStr (String.mk k), String.mk v)

/-- Embeds the header loop of `parse_request`: read lines until a read of
zero bytes (EOF) or an empty trimmed line, inserting each parsed header.
The fuel argument only bounds the recursion; `parse_headers` passes the
stream length, which the loop can never exhaust (each iteration consumes at
least one char), and at fuel zero the stream is empty, where the loop also
stops with the headers read so far. -/
def parseHeadersGo : Nat → List Char → HeadersHere →
    Except RequestError (HeadersHere × List Char)
  | 0, s, hs => .ok (hs, s)
  | fuel + 1, s, hs =>
    let (line, rest) := readLineChars s
    if line.isEmpty then .ok (hs, rest)
    else
      let trimmed := trimL line
      if trimmed.isEmpty then .ok (hs, rest)
      else
        match parse_header_line trimmed with
        | .error e => .error e
        | .ok (k, v) => parseHeadersGo fuel rest (hinsert hs k v)

/-- Embeds the header loop of `parse_request` on a stream. -/
def parse_headers (s : List Char) (hs : HeadersHere) :
    Except RequestError (HeadersHere × List Char) :=
  parseHeadersGo s.length s hs

/-- Embeds the `content_length` computation of `parse_request`:
`headers.get("content-length").unwrap_or(&"0").parse::<usize>().unwrap_or(0)`. -/
def content_length_of (hs : HeadersHere) : Nat :=
  (parseUsize ((hget hs "content-length").getD "0")).getD 0

/-- Embeds the body stage of `parse_request`: an empty body at declared
length zero, otherwise `read_exact` of exactly `cl` bytes, which fails with
an I/O error when the stream is shorter. -/
def readBody (cl : Nat) (rest : List Char) : Except RequestError (List Char) :=
  if cl = 0 then .ok []
  else if rest.length < cl then .error .IoErr
  else .ok (rest.take cl)

/-- Embeds `parse_request` on a finite stream: start line, header loop,
persistence flag, body. An empty read at the start is `ConnectionClosed`;
a blank start line yields `none` (caller retries). -/
def parse_request (s : List Char) : Except RequestError (Option Request) :=
  let (l, rest) := readLineChars s
  if l.isEmpty then .error .ConnectionClosed
  else
    let start := trimL l
    if start.isEmpty then .ok none
    else
      match parse_start_line start with
      | .error e => .error e
      | .ok (m, p, v) =>
        match parse_headers rest [] with
        | .error e => .error e
        | .ok (hs, rest2) =>
          let connexion_close := hget hs "connection" == some "close"
          let cl := content_length_of hs
          match readBody cl rest2 with
          | .error e => .error e
          | .ok body =>
            let persistent := strContains v "1.1" && !connexion_close
            .ok (some ⟨m, p, v, hs, body, persistent⟩)

/-! ### `src/main.rs`: response model, compression, serialization -/

/-- Embeds `enum HttpCode`. -/
inductive HttpCode
  | Ok
  | NotFound
  | InternalServerError
  | BadRequest
  | Created
deriving DecidableEq, Repr

/-- UTF-8 encoding of one scalar, as `String::into_bytes` produces. -/
def utf8Bytes (c : Char) : List Nat :=
  let n := c.toNat
  if n < 128 then [n]
  else if n < 2048 then [192 + n / 64, 128 + n % 64]
  else if n < 65536 then [224 + n / 4096, 128 + n / 64 % 64, 128 + n % 64]
  else [240 + n / 262144, 128 + n / 4096 % 64, 128 + n / 64 % 64, 128 + n % 64]

/-- Embeds the `String` → `Vec<u8>` conversions (`into_bytes`, `.into()`). -/
def strBytes (s : String) : List Nat := s.toList.flatMap utf8Bytes

/-- Embeds `struct Response`; `content` is the byte vector. -/
structure Response where
  status : HttpCode
  version : String
  content_type : String
  content_encoding : Option String
  connection : Option String
  content : List Nat
deriving DecidableEq, Repr

/-- Embeds `impl Default for Response`. -/
def Response.dfl : Response :=
  { status := .Ok
    version := "HTTP/1.1"
    content_type := "text/plain"
    content_encoding := none
    connection := none
    content := [] }

/-- An encoder as used by `compress_gzip` / `compress_deflate`: the flate2
encoders are outside this repository, so they are parameters here. -/
abbrev Encoder := List Nat → Except String (List Nat)

/-- Embeds the `algorithm` selection inside `Response::compress`: the
`gzip` guard is checked before the `deflate` guard ("order matters"). -/
def chooseAlgorithm (compression : String) : Option String :=
  if strContains compression "gzip" then some "gzip"
  else if strContains compression "deflate" then some "deflate"
  else none

/-- Embeds `Response::compress` with the two flate2 encoders abstracted. -/
def Response.compress (gz df : Encoder) (self : Response)
    (compression : Option String) : Response :=
  match compression with
  | some compression =>
    let algorithm := chooseAlgorithm compression
    let compressed_content : Except String (List Nat) :=
      match algorithm with
      | some c =>
        if strContains c "gzip" then gz self.content
        else if strContains c "deflate" then df self.content
        else .ok self.content
      | none => .ok self.content
    match compressed_content with
    | .ok compressed => { self with content_encoding := algorithm, content := compressed }
    | .error e =>
      { self with status := .InternalServerError,
                  content := strBytes ("Error compressing content: " ++ e) }
  | none => self

/-- Embeds the `head` status-text match inside `handle_response`. -/
def statusHead : HttpCode → String
  | .Ok => "200 OK"
  | .BadRequest => "400 Bad Request"
  | .NotFound => "404 Not Found"
  | .InternalServerError => "500 Internal Server Error"
  | .Created => "201 Created"

/-- Embeds `handle_response`: push the status line, the optional
`Connection` header, then either a lone blank line (empty content) or the
content headers, blank line and body; concatenate. -/
def handle_response (response : Response) : List Nat :=
  let content := response.content
  let head := statusHead response.status
  let statusLine := strBytes (response.version ++ " " ++ head ++ "\r\n")
  let connLine :=
    match response.connection with
    | some connection => strBytes ("Connection: " ++ connection ++ "\r\n")
    | none => []
  let tail :=
    match content.length with
    | 0 => strBytes "\r\n"
    | n =>
      strBytes ("Content-Type: " ++ response.content_type ++ "\r\n")
        ++ strBytes ("Content-Length: " ++ toString n ++ "\r\n")
        ++ (match response.content_encoding with
            | some compression => strBytes ("Content-Encoding: " ++ compression ++ "\r\n")
            | none => [])
        ++ strBytes "\r\n"
        ++ content
  statusLine ++ connLine ++ tail

/-! ### `src/middleware.rs` -/

/-- Embeds `mw_version`. -/
def mw_version (request : Request) (response : Response) : Response :=
  { response with version := request.version }

/-- Embeds `mw_close_connection`. -/
def mw_close_connection (request : Request) (response : Response) : Response :=
  { response with connection := hget request.headers "connection" }

/-- Embeds `mw_compress`. -/
def mw_compress (gz df : Encoder) (request : Request) (response : Response) : Response :=
  response.compress gz df (hget request.headers "accept-encoding")

/-- Embeds `handle_middlewares`: version, then connection, then compression. -/
def handle_middlewares (gz df : Encoder) (request : Request) (response : Response) : Response :=
  mw_compress gz df request (mw_close_connection request (mw_version request response))

/-! ### `src/route.rs` -/

/-- Embeds `handle_echo`. -/
def handle_echo (_r : Request) (rep : String) : Response :=
  { Response.dfl with content := strBytes rep }

/-- Embeds `handle_user_agent`. -/
def handle_user_agent (request : Request) : Response :=
  match hget request.headers "user-agent" with
  | some ua_spec => { Response.dfl with content := strBytes ua_spec }
  | none =>
    { Response.dfl with status := .BadRequest,
                        content := strBytes "Missing User-Agent header" }

/-- Embeds `route::handle_request`; `hfc` and `hfu` stand for
`handle_file_content` and `handle_file_upload`, whose bodies perform
filesystem I/O and are therefore abstracted as parameters
`(request, filename, dest_dir) → Response`. -/
def handle_request (hfc hfu : Request → String → String → Response)
    (request : Request) (dest_dir : String) : Response :=
  let version := request.version
  if request.path = "/" then Response.dfl
  else if request.path = "/user-agent" then handle_user_agent request
  else if strStartsWith request.path "/echo/" then
    handle_echo request (strDrop request.path 6)
  else if request.method == "GET" && strStartsWith request.path "/files/" then
    hfc request (strDrop request.path 7) dest_dir
  else if request.method == "POST" && strStartsWith request.path "/files/" then
    hfu request (strDrop request.path 7) dest_dir
  else { Response.dfl with version := version, status := .NotFound }

/-! ### Spec-side serialization (for the refinement claim about
`handle_response`) -/

/-- Follows the spec's fixed status-text table, word for word. -/
def statusTextSpec : HttpCode → String
  | .Ok => "200 OK"
  | .Created => "201 Created"
  | .BadRequest => "400 Bad Request"
  | .NotFound => "404 Not Found"
  | .InternalServerError => "500 Internal Server Error"

/-- Follows the spec's serialization wording: the status line, then
`Connection` iff the directive is set, then for empty content a single
blank line and no content headers, and for non-empty content
`Content-Type`, `Content-Length` (the exact byte length of the final
content), `Content-Encoding` iff set, a blank line, and the content bytes,
in exactly this order. -/
def serialize_spec (r : Response) : List Nat :=
  strBytes (r.version ++ " " ++ statusTextSpec r.status ++ "\r\n")
    ++ (match r.connection with
        | some v => strBytes ("Connection: " ++ v ++ "\r\n")
        | none => [])
    ++ (if r.content.isEmpty then strBytes "\r\n"
        else
          strBytes ("Content-Type: " ++ r.content_type ++ "\r\n")
            ++ strBytes ("Content-Length: " ++ toString r.content.length ++ "\r\n")
            ++ (match r.content_encoding with
                | some e => strBytes ("Content-Encoding: " ++ e ++ "\r\n")
                | none => [])
            ++ strBytes "\r\n"
            ++ r.content)

/-! ### Concrete inputs used by the witnesses -/

/-- A persistent HTTP/1.1 request on the wire. -/
def sWitC1 : List Char := "GET / HTTP/1.1\r\nHost: x\r\n\r\n".toList

/-- The request `parse_request` produces from `sWitC1`. -/
def reqWitC1 : Request :=
  { method := "GET", path := "/", version := "HTTP/1.1",
    headers := [("host", "x")], body := [], persistent := true }

/-- A request with a declared body on the wire. -/
def sWitC6 : List Char :=
  "POST /files/a.txt HTTP/1.1\r\nContent-Length: 5\r\n\r\nhello".toList

/-- The request `parse_request` produces from `sWitC6`. -/
def reqWitC6 : Request :=
  { method := "POST", path := "/files/a.txt", version := "HTTP/1.1",
    headers := [("content-length", "5")], body := "hello".toList, persistent := true }

/-- A request whose path matches the echo route. -/
def reqEchoW : Request :=
  { method := "POST", path := "/echo/abc", version := "HTTP/1.1",
    headers := [], body := [], persistent := true }

/-- A request whose path matches no route. -/
def reqNoRouteW : Request :=
  { method := "GET", path := "/teapot", version := "HTTP/1.1",
    headers := [], body := [], persistent := true }

/-- A trivial stand-in for the filesystem route handlers. -/
def fsStubW : Request → String → String → Response := fun _ _ _ => Response.dfl

/-! ### Helper lemmas -/

theorem splitSpace_ne_nil (l : List Char) : splitSpace l ≠ [] := by
  cases l with
  | nil => simp [splitSpace]
  | cons c rest =>
    simp only [splitSpace]
    split
    · simp
    · cases h : splitSpace rest <;> simp

theorem listContains_cons (pat : List Char) (c : Char) (rest : List Char) :
    listContains pat (c :: rest) = (pat.isPrefixOf (c :: rest) || listContains pat rest) := rfl

theorem splitColonSpace_no_sep (l : List Char)
    (h : listContains [':', ' '] l = false) : splitColonSpace l = [l] := by
  induction l with
  | nil => rfl
  | cons c rest ih =>
    cases rest with
    | nil => rfl
    | cons d rest2 =>
      rw [listContains_cons, Bool.or_eq_false_iff] at h
      obtain ⟨h1, h2⟩ := h
      simp only [List.isPrefixOf, Bool.and_eq_false_iff, beq_eq_false_iff_ne] at h1
      simp only [splitColonSpace]
      rw [if_neg]
      · rw [ih h2]
      · simp only [Bool.and_eq_true, decide_eq_true_eq]
        rintro ⟨rfl, rfl⟩
        rcases h1 with h1 | h1
        · exact h1 rfl
        rcases h1 with h1 | h1
        · exact h1 rfl
        · simp [List.isPrefixOf] at h1

theorem splitColonSpace_sep_head (b : List Char) :
    splitColonSpace (':' :: ' ' :: b) = [] :: splitColonSpace b := by
  simp [splitColonSpace]

theorem splitColonSpace_append (a b : List Char)
    (h : listContains [':', ' '] a = false) :
    splitColonSpace (a ++ ':' :: ' ' :: b) = a :: splitColonSpace b := by
  induction a with
  | nil => simpa using splitColonSpace_sep_head b
  | cons c a2 ih =>
    cases a2 with
    | nil => simp [splitColonSpace]
    | cons d a3 =>
      rw [listContains_cons, Bool.or_eq_false_iff] at h
      obtain ⟨h1, h2⟩ := h
      simp only [List.isPrefixOf, Bool.and_eq_false_iff, beq_eq_false_iff_ne] at h1
      simp only [List.cons_append, splitColonSpace]
      rw [if_neg]
      · have := ih h2
        simp only [List.cons_append, List.append_eq] at this ⊢
        rw [this]
      · simp only [Bool.and_eq_true, decide_eq_true_eq]
        rintro ⟨rfl, rfl⟩
        rcases h1 with h1 | h1
        · exact h1 rfl
        rcases h1 with h1 | h1
        · exact h1 rfl
        · simp [List.isPrefixOf] at h1

theorem find?_hinsert (hs : HeadersHere) (k v : String) :
    List.find? (fun p => p.1 == k) (hinsert hs k v) = some (k, v) := by
  unfold hinsert
  induction hs with
  | nil => simp [List.find?]
  | cons p t ih =>
    by_cases hp : p.1 = k
    · simp only [List.filter_cons]
      rw [if_neg (by simp [hp])]
      exact ih
    · simp only [List.filter_cons]
      rw [if_pos (by simp [hp])]
      simp only [List.cons_append] at ih ⊢
      simp [List.find?_cons, hp, ih]

theorem hget_hinsert (hs : HeadersHere) (k v : String) :
    hget (hinsert hs k v) k = some v := by
  rw [hget, find?_hinsert]
  rfl

/-- Claim C7: for every non-empty trimmed start line, splitting on single
spaces yields method, path and version, and each missing component produces
its own distinct fatal error: `MissingPath` when only one token exists,
`MissingVersion` when only two tokens exist, and `MissingMethod` only in
the no-token case, which cannot arise (the split of a non-empty line always
yields a token), so the start-line stage never returns `MissingMethod`. -/
theorem c7_start_line_errors (l : List Char) (_h : l ≠ []) :
    splitSpace l ≠ []
    ∧ ((splitSpace l).length = 1 → parse_start_line l = .error .MissingPath)
    ∧ ((splitSpace l).length = 2 → parse_start_line l = .error .MissingVersion)
    ∧ (∀ m p v r, splitSpace l = m :: p :: v :: r →
        parse_start_line l = .ok (String.mk m, String.mk p, String.mk v))
    ∧ parse_start_line l ≠ .error .MissingMethod := by
  rcases hsp : splitSpace l with _ | ⟨m0, _ | ⟨p0, _ | ⟨v0, r0⟩⟩⟩
  · exact absurd hsp (splitSpace_ne_nil l)
  · refine ⟨by simp, ?_, by simp, ?_, ?_⟩
    · intro _
      simp [parse_start_line, hsp]
    · intro m p v r he
      simp at he
    · simp [parse_start_line, hsp]
  · refine ⟨by simp, by simp, ?_, ?_, ?_⟩
    · intro _
      simp [parse_start_line, hsp]
    · intro m p v r he
      simp at he
    · simp [parse_start_line, hsp]
  · refine ⟨by simp, by simp, by simp, ?_, ?_⟩
    · intro m p v r he
      simp only [List.cons.injEq] at he
      obtain ⟨rfl, rfl, rfl, rfl⟩ := he
      simp [parse_start_line, hsp]
    · simp [parse_start_line, hsp]

/-- Witness for C7 at the concrete start lines "GET", "GET /" and
"GET / HTTP/1.1". -/
theorem c7_witness :
    parse_start_line "GET".toList = .error .MissingPath
    ∧ parse_start_line "GET /".toList = .error .MissingVersion
    ∧ parse_start_line "GET / HTTP/1.1".toList = .ok ("GET", "/", "HTTP/1.1") :=
  ⟨(c7_start_line_errors "GET".toList (by decide)).2.1 rfl,
   (c7_start_line_errors "GET /".toList (by decide)).2.2.1 rfl,
   (c7_start_line_errors "GET / HTTP/1.1".toList (by decide)).2.2.2.1
     "GET".toList "/".toList "HTTP/1.1".toList [] rfl⟩

/-- Claim C5: a header line lacking the literal separator `": "` is the
fatal `InvalidHeader` error; a line consisting of a key, the separator and
a value is split into that key (lower-cased) and that value, so a header
sent as `User-Agent: x` is stored under key "user-agent"; insertion under a
key makes lookup of that key succeed, and a later insertion under the same
key overwrites the earlier value. -/
theorem c5_header_lines (l kc vc : List Char) (hs : HeadersHere) (k v v' : String) :
    (listContains [':', ' '] l = false → parse_header_line l = .error .InvalidHeader)
    ∧ (listContains [':', ' '] kc = false → listContains [':', ' '] vc = false →
        parse_header_line (kc ++ ':' :: ' ' :: vc) =
          .ok (lowerStr (String.mk kc), String.mk vc))
    ∧ parse_header_line "User-Agent: x".toList = .ok ("user-agent", "x")
    ∧ hget (hinsert hs k v) k = some v
    ∧ hget (hinsert (hinsert hs k v) k v') k = some v' := by
  refine ⟨?_, ?_, rfl, hget_hinsert hs k v, hget_hinsert (hinsert hs k v) k v'⟩
  · intro h
    rw [parse_header_line, splitColonSpace_no_sep l h]
  · intro hk hv
    rw [parse_header_line, splitColonSpace_append kc vc hk,
      splitColonSpace_no_sep vc hv]

/-- Witness for C5 at the concrete lines "abc" (no separator) and
"User-Agent: x", and a concrete duplicated key. -/
theorem c5_witness :
    parse_header_line "abc".toList = .error .InvalidHeader
    ∧ parse_header_line ("User-Agent".toList ++ ':' :: ' ' :: "x".toList) =
        .ok (lowerStr "User-Agent", "x")
    ∧ hget (hinsert (hinsert [] "user-agent" "curl") "user-agent" "wget")
        "user-agent" = some "wget" :=
  ⟨(c5_header_lines "abc".toList [] [] [] "k" "v" "w").1 rfl,
   (c5_header_lines [] "User-Agent".toList "x".toList [] "k" "v" "w").2.1 rfl rfl,
   (c5_header_lines [] [] [] [] "user-agent" "curl" "wget").2.2.2.2⟩

theorem readBody_ok_length (cl : Nat) (rest b : List Char)
    (h : readBody cl rest = .ok b) : b.length = cl := by
  rw [readBody] at h
  by_cases h0 : cl = 0
  · rw [if_pos h0] at h
    obtain rfl : ([] : List Char) = b := by injection h
    simp [h0]
  · rw [if_neg h0] at h
    by_cases h1 : rest.length < cl
    · rw [if_pos h1] at h
      exact absurd h (by simp)
    · rw [if_neg h1] at h
      obtain rfl : rest.take cl = b := by injection h
      rw [List.length_take]
      omega

theorem readBody_short (cl : Nat) (rest : List Char) (h : rest.length < cl) :
    readBody cl rest = .error .IoErr := by
  rw [readBody, if_neg (by omega), if_pos h]

theorem parse_request_ok_inv (s : List Char) (req : Request)
    (h : parse_request s = .ok (some req)) :
    req.persistent = (strContains req.version "1.1"
        && !(hget req.headers "connection" == some "close"))
    ∧ req.body.length = content_length_of req.headers := by
  unfold parse_request at h
  rcases hlr : readLineChars s with ⟨l, rest⟩
  rw [hlr] at h
  dsimp only [] at h
  by_cases hle : l.isEmpty = true
  · rw [if_pos hle] at h
    exact absurd h (by simp)
  · rw [if_neg hle] at h
    by_cases hte : (trimL l).isEmpty = true
    · rw [if_pos hte] at h
      exact absurd h (by simp)
    · rw [if_neg hte] at h
      rcases hsl : parse_start_line (trimL l) with e | ⟨m, p, v⟩ <;> rw [hsl] at h
      · exact absurd h (by simp)
      dsimp only [] at h
      rcases hph : parse_headers rest [] with e | ⟨hs, rest2⟩ <;> rw [hph] at h
      · exact absurd h (by simp)
      dsimp only [] at h
      rcases hb : readBody (content_length_of hs) rest2 with e | body <;> rw [hb] at h
      · exact absurd h (by simp)
      simp only [Except.ok.injEq, Option.some.injEq] at h
      subst h
      exact ⟨rfl, readBody_ok_length _ _ _ hb⟩

/-- Claim C1: for every parsed request, the persistent flag is true iff the
version string contains "1.1" and the `connection` header is absent or its
value differs from the literal string "close". -/
theorem c1_persistent_iff (s : List Char) (req : Request)
    (h : parse_request s = .ok (some req)) :
    req.persistent = true ↔
      (strContains req.version "1.1" = true
        ∧ hget req.headers "connection" ≠ some "close") := by
  rw [(parse_request_ok_inv s req h).1]
  simp

/-- Witness for C1 at the concrete wire input `sWitC1`. -/
theorem c1_witness : reqWitC1.persistent = true :=
  (c1_persistent_iff sWitC1 reqWitC1 rfl).mpr ⟨rfl, by decide⟩

/-- Claim C6: every parsed request's body length equals the declared
content length, which is 0 when the `content-length` header is absent or
unparsable (so the body is then empty), and a stream shorter than the
declared length is the fatal I/O error. -/
theorem c6_body_length (s : List Char) (req : Request) (hs : HeadersHere)
    (str : String) (cl : Nat) (rest : List Char)
    (h : parse_request s = .ok (some req)) :
    req.body.length = content_length_of req.headers
    ∧ (content_length_of req.headers = 0 → req.body = [])
    ∧ (hget hs "content-length" = none → content_length_of hs = 0)
    ∧ (hget hs "content-length" = some str → parseUsize str = none →
        content_length_of hs = 0)
    ∧ (rest.length < cl → readBody cl rest = .error .IoErr) := by
  have hlen := (parse_request_ok_inv s req h).2
  refine ⟨hlen, ?_, ?_, ?_, readBody_short cl rest⟩
  · intro h0
    rw [h0] at hlen
    exact List.length_eq_zero.mp hlen
  · intro habs
    rw [content_length_of, habs]
    rfl
  · intro hsome hbad
    rw [content_length_of, hsome]
    simp [hbad]

/-- Witness for C6 at the concrete wire input `sWitC6` (declared length 5,
body "hello") and a concrete short read. -/
theorem c6_witness :
    reqWitC6.body.length = content_length_of reqWitC6.headers
    ∧ readBody 3 "ab".toList = .error .IoErr :=
  ⟨(c6_body_length sWitC6 reqWitC6 [] "x" 0 [] rfl).1,
   (c6_body_length sWitC6 reqWitC6 [] "x" 3 "ab".toList rfl).2.2.2.2 (by decide)⟩

/-- Claim C2: for every response, serialization emits exactly the status
line from the fixed table, then `Connection` iff the directive is set,
then for empty content a single blank line and no content headers, and for
non-empty content `Content-Type`, `Content-Length` equal to the byte
length of the final content, `Content-Encoding` iff set, a blank line and
the content bytes, in exactly this order (the spec-side layout is
`serialize_spec`). -/
theorem c2_serialization (r : Response) : handle_response r = serialize_spec r := by
  obtain ⟨st, ver, ct, ce, conn, content⟩ := r
  cases st <;> cases conn <;> cases ce <;> cases content <;>
    simp [handle_response, serialize_spec, statusHead, statusTextSpec]

/-- Claim C3: compression with an absent `accept-encoding` returns the
response unchanged; the algorithm is chosen by substring match with "gzip"
checked before "deflate" (so any value containing "gzip", such as
"deflate, gzip", selects gzip regardless of order of appearance); a value
containing neither substring passes the content through unchanged with no
content-encoding set. -/
theorem c3_compression_selection (gz df : Encoder) (r : Response) (v : String)
    (cc : List Nat) :
    Response.compress gz df r none = r
    ∧ (strContains v "gzip" = true → gz r.content = .ok cc →
        Response.compress gz df r (some v) =
          { r with content_encoding := some "gzip", content := cc })
    ∧ (strContains v "gzip" = false → strContains v "deflate" = true →
        df r.content = .ok cc →
        Response.compress gz df r (some v) =
          { r with content_encoding := some "deflate", content := cc })
    ∧ (strContains v "gzip" = false → strContains v "deflate" = false →
        Response.compress gz df r (some v) = { r with content_encoding := none })
    ∧ chooseAlgorithm "deflate, gzip" = some "gzip" := by
  refine ⟨rfl, ?_, ?_, ?_, rfl⟩
  · intro h1 h2
    have halg : chooseAlgorithm v = some "gzip" := by
      rw [chooseAlgorithm, if_pos h1]
    rw [Response.compress]
    rw [halg]
    have hg : strContains "gzip" "gzip" = true := rfl
    simp only [hg, if_pos, h2]
  · intro h1 h2 h3
    have halg : chooseAlgorithm v = some "deflate" := by
      rw [chooseAlgorithm, if_neg (by simp [h1]), if_pos h2]
    rw [Response.compress]
    rw [halg]
    have hg : strContains "deflate" "gzip" = false := rfl
    have hd : strContains "deflate" "deflate" = true := rfl
    simp only [hg, hd, Bool.false_eq_true, if_false, if_pos, h3]
  · intro h1 h2
    have halg : chooseAlgorithm v = none := by
      rw [chooseAlgorithm, if_neg (by simp [h1]), if_neg (by simp [h2])]
    rw [Response.compress]
    rw [halg]

/-- Witness for C3: with "deflate, gzip" the gzip encoder is the one that
runs, despite deflate appearing first. -/
theorem c3_witness :
    Response.compress (fun _ => Except.ok [1, 2]) (fun _ => Except.ok [3])
        Response.dfl (some "deflate, gzip") =
      { Response.dfl with content_encoding := some "gzip", content := [1, 2] } :=
  (c3_compression_selection (fun _ => Except.ok [1, 2]) (fun _ => Except.ok [3])
    Response.dfl "deflate, gzip" [1, 2]).2.1 rfl rfl

theorem compress_gzip_ok (gz df : Encoder) (r : Response) (v : String)
    (cc : List Nat) (h1 : strContains v "gzip" = true)
    (h2 : gz r.content = .ok cc) :
    Response.compress gz df r (some v) =
      { r with content_encoding := some "gzip", content := cc } := by
  have halg : chooseAlgorithm v = some "gzip" := by
    rw [chooseAlgorithm, if_pos h1]
  rw [Response.compress, halg]
  have hg : strContains "gzip" "gzip" = true := rfl
  simp only [hg, if_pos, h2]

/-- Counterexample to C4 as stated: a response whose `content_encoding` is
already set keeps it through the error branch of `compress` (the error
branch copies every field except status and content from the input), so
the compressed-failure response does not have `content_encoding` unset for
every input response. -/
theorem c4_counterexample :
    (Response.compress (fun _ => Except.error "boom") (fun _ => Except.error "boom")
        { Response.dfl with content_encoding := some "identity" }
        (some "gzip")).status = HttpCode.InternalServerError
    ∧ (Response.compress (fun _ => Except.error "boom") (fun _ => Except.error "boom")
        { Response.dfl with content_encoding := some "identity" }
        (some "gzip")).content_encoding = some "identity" := ⟨rfl, rfl⟩

/-- Claim C4 (amended): for every response and accept-encoding value that
selects an algorithm, if the selected encoder fails then `compress`
returns a response with status `InternalServerError` whose content is the
human-readable message "Error compressing content: " followed by the
encoder's error, and all other fields — in particular `content_encoding` —
are copied unchanged from the input response (so the encoding is not set
whenever the input had none); the failure is never propagated as an error,
`compress` being a total function into `Response`. -/
theorem c4_compress_failure (gz df : Encoder) (r : Response) (v e : String) :
    (strContains v "gzip" = true → gz r.content = .error e →
      Response.compress gz df r (some v) =
        { r with status := .InternalServerError,
                 content := strBytes ("Error compressing content: " ++ e) })
    ∧ (strContains v "gzip" = false → strContains v "deflate" = true →
        df r.content = .error e →
        Response.compress gz df r (some v) =
          { r with status := .InternalServerError,
                   content := strBytes ("Error compressing content: " ++ e) }) := by
  constructor
  · intro h1 h2
    have halg : chooseAlgorithm v = some "gzip" := by
      rw [chooseAlgorithm, if_pos h1]
    rw [Response.compress, halg]
    have hg : strContains "gzip" "gzip" = true := rfl
    simp only [hg, if_pos, h2]
  · intro h1 h2 h3
    have halg : chooseAlgorithm v = some "deflate" := by
      rw [chooseAlgorithm, if_neg (by simp [h1]), if_pos h2]
    rw [Response.compress, halg]
    have hg : strContains "deflate" "gzip" = false := rfl
    have hd : strContains "deflate" "deflate" = true := rfl
    simp only [hg, hd, Bool.false_eq_true, if_false, if_pos, h3]

/-- Witness for C4 (amended) at a concrete failing encoder. -/
theorem c4_witness :
    Response.compress (fun _ => Except.error "boom") (fun _ => Except.error "x")
        Response.dfl (some "gzip") =
      { Response.dfl with status := .InternalServerError,
                          content := strBytes ("Error compressing content: " ++ "boom") } :=
  (c4_compress_failure (fun _ => Except.error "boom") (fun _ => Except.error "x")
    Response.dfl "gzip" "boom").1 rfl rfl

theorem compress_preserves_fields (gz df : Encoder) (r : Response) (c : Option String) :
    (Response.compress gz df r c).version = r.version
    ∧ (Response.compress gz df r c).connection = r.connection := by
  cases c with
  | none => exact ⟨rfl, rfl⟩
  | some v =>
    rw [Response.compress]
    split <;> exact ⟨rfl, rfl⟩

/-- Claim C8: for every request and every handler-produced response, after
the middleware pipeline the response's version equals the request's
version and its connection directive equals the request's raw `connection`
header value (present iff the header is present). -/
theorem c8_middleware_fields (gz df : Encoder) (req : Request) (resp : Response) :
    (handle_middlewares gz df req resp).version = req.version
    ∧ (handle_middlewares gz df req resp).connection = hget req.headers "connection" := by
  unfold handle_middlewares mw_compress
  have h := compress_preserves_fields gz df
    (mw_close_connection req (mw_version req resp)) (hget req.headers "accept-encoding")
  exact ⟨h.1.trans rfl, h.2.trans rfl⟩

/-- Claim C9: compression is not skipped for empty-content responses: when
the accept-encoding value contains "gzip", `compress` on a response with
empty content still runs the encoder and sets the content encoding, the
final content is the encoder's output on empty input, and (that output
being non-empty) the serialized response carries the content headers and a
body although the handler produced none. -/
theorem c9_empty_content_still_compressed (gz df : Encoder) (r : Response)
    (v : String) (out : List Nat)
    (h0 : r.content = []) (h1 : strContains v "gzip" = true)
    (h2 : gz [] = .ok out) (h3 : out ≠ []) :
    (Response.compress gz df r (some v)).content = out
    ∧ (Response.compress gz df r (some v)).content_encoding = some "gzip"
    ∧ handle_response (Response.compress gz df r (some v)) =
        strBytes (r.version ++ " " ++ statusHead r.status ++ "\r\n")
        ++ (match r.connection with
            | some c => strBytes ("Connection: " ++ c ++ "\r\n")
            | none => [])
        ++ (strBytes ("Content-Type: " ++ r.content_type ++ "\r\n")
            ++ strBytes ("Content-Length: " ++ toString out.length ++ "\r\n")
            ++ strBytes ("Content-Encoding: " ++ "gzip" ++ "\r\n")
            ++ strBytes "\r\n"
            ++ out) := by
  have hc : Response.compress gz df r (some v) =
      { r with content_encoding := some "gzip", content := out } :=
    compress_gzip_ok gz df r v out h1 (by rw [h0]; exact h2)
  refine ⟨by rw [hc], by rw [hc], ?_⟩
  rw [hc]
  cases out with
  | nil => exact absurd rfl h3
  | cons o os => rfl

/-- Witness for C9 at a concrete encoder producing a one-byte output on
empty input, with the handler response `Response.dfl` (empty content). -/
theorem c9_witness :
    (Response.compress (fun _ => Except.ok [31]) (fun _ => Except.ok [9])
        Response.dfl (some "gzip")).content = [31]
    ∧ (Response.compress (fun _ => Except.ok [31]) (fun _ => Except.ok [9])
        Response.dfl (some "gzip")).content_encoding = some "gzip" :=
  ⟨(c9_empty_content_still_compressed (fun _ => Except.ok [31])
      (fun _ => Except.ok [9]) Response.dfl "gzip" [31] rfl rfl rfl
      (by simp)).1,
   (c9_empty_content_still_compressed (fun _ => Except.ok [31])
      (fun _ => Except.ok [9]) Response.dfl "gzip" [31] rfl rfl rfl
      (by simp)).2.1⟩

/-- Claim C10: the dispatcher consults the method only for "/files/"
paths: for a path equal to "/" or "/user-agent" or starting with "/echo/",
the result does not depend on the method (in particular a POST to
/echo/abc gets OK with content "abc"), and a path matching no route yields
NotFound. -/
theorem c10_routing (hfc hfu : Request → String → String → Response)
    (req : Request) (dest : String) (m1 m2 : String) :
    ((req.path = "/" ∨ req.path = "/user-agent"
        ∨ strStartsWith req.path "/echo/" = true) →
      handle_request hfc hfu { req with method := m1 } dest =
        handle_request hfc hfu { req with method := m2 } dest)
    ∧ (req.method = "POST" → req.path = "/echo/abc" →
        handle_request hfc hfu req dest =
          { Response.dfl with content := strBytes "abc" })
    ∧ (req.path ≠ "/" → req.path ≠ "/user-agent" →
        strStartsWith req.path "/echo/" = false →
        strStartsWith req.path "/files/" = false →
        handle_request hfc hfu req dest =
          { Response.dfl with version := req.version, status := .NotFound }) := by
  refine ⟨?_, ?_, ?_⟩
  · intro hroute
    by_cases hp1 : req.path = "/"
    · simp [handle_request, hp1]
    by_cases hp2 : req.path = "/user-agent"
    · simp [handle_request, hp1, hp2, handle_user_agent]
    · have he : strStartsWith req.path "/echo/" = true := by
        rcases hroute with h | h | h
        · exact absurd h hp1
        · exact absurd h hp2
        · exact h
      simp [handle_request, hp1, hp2, he, handle_echo]
  · intro hm hp
    have hs1 : strStartsWith "/echo/abc" "/echo/" = true := rfl
    have hs2 : strDrop "/echo/abc" 6 = "abc" := rfl
    simp [handle_request, hp, hs1, hs2, handle_echo]
  · intro h1 h2 h3 h4
    simp [handle_request, h1, h2, h3, h4]

/-- Witness for C10: a PUT and a GET to /echo/x take the same route, a
POST to /echo/abc echoes "abc", and an unrouted path is NotFound. -/
theorem c10_witness :
    handle_request fsStubW fsStubW { reqEchoW with method := "PUT" } "/tmp/" =
      handle_request fsStubW fsStubW { reqEchoW with method := "GET" } "/tmp/"
    ∧ handle_request fsStubW fsStubW reqEchoW "/tmp/" =
        { Response.dfl with content := strBytes "abc" }
    ∧ handle_request fsStubW fsStubW reqNoRouteW "/tmp/" =
        { Response.dfl with version := reqNoRouteW.version, status := .NotFound } :=
  ⟨(c10_routing fsStubW fsStubW reqEchoW "/tmp/" "PUT" "GET").1 (Or.inr (Or.inr rfl)),
   (c10_routing fsStubW fsStubW reqEchoW "/tmp/" "x" "y").2.1 rfl rfl,
   (c10_routing fsStubW fsStubW reqNoRouteW "/tmp/" "x" "y").2.2 (by decide) (by decide)
     rfl rfl⟩
